import Mathlib

/-!
# A shallow embedding of `vizstra/math`

The Go package is a small 3D linear-algebra core: `Vec`, `Mat` (4x4),
`Mat3` (3x3) and `Quat`.  Every `float64` is read as an element of a linear
ordered field `α` (the rationals for evaluation, the reals for the statements
about exact arithmetic).  The functions `Sqrt`, `Cos`, `Sin`, `Acos`, which the
package takes from Go's standard library, are parameters of the definitions
that call them; the theorems instantiate them with `Real.sqrt`, `Real.cos`,
`Real.sin` and `Real.arccos`.

A Go function returning `(Mat3, error)` is embedded as a pair whose second
component is `none` for a `nil` error and `some msg` otherwise.
-/

namespace VizMath

variable {α : Type} [LinearOrderedField α]

/-! ## math-ext.go -/

/-- Clamp from `math-ext.go`. -/
def Clamp (value min max : α) : α :=
  if value > max then max
  else if value < min then min
  else value

/-! ## vector.go -/

/-- The struct `Vec` of `vector.go`: fields in declaration order X, Y, Z, W. -/
@[ext] structure Vec (α : Type) where
  X : α
  Y : α
  Z : α
  W : α

/-- Scale of `vector.go`. -/
def Vec.Scale (v : Vec α) (scalar : α) : Vec α :=
  ⟨v.X * scalar, v.Y * scalar, v.Z * scalar, v.W⟩

/-- Translate of `vector.go`. -/
def Vec.Translate (v : Vec α) (x y z : α) : Vec α :=
  ⟨v.X + x, v.Y + y, v.Z + z, v.W⟩

/-- Length of `vector.go`: the 3-component norm. -/
def Vec.Length (Sqrt : α → α) (v : Vec α) : α :=
  Sqrt ((v.X * v.X) + (v.Y * v.Y) + (v.Z * v.Z))

/-- Normalize of `vector.go`: divides X, Y, Z by the length when it is not 0. -/
def Vec.Normalize (Sqrt : α → α) (v : Vec α) : Vec α :=
  let l := v.Length Sqrt
  if l ≠ 0 then ⟨v.X / l, v.Y / l, v.Z / l, v.W⟩ else v

/-- Subtract of `vector.go`. -/
def Vec.Subtract (a b : Vec α) : Vec α :=
  ⟨a.X - b.X, a.Y - b.Y, a.Z - b.Z, a.W⟩

/-- Add of `vector.go`. -/
def Vec.Add (a b : Vec α) : Vec α :=
  ⟨a.X + b.X, a.Y + b.Y, a.Z + b.Z, a.W⟩

/-- CrossProduct of `vector.go`. -/
def Vec.CrossProduct (a b : Vec α) : Vec α :=
  ⟨a.Y * b.Z - a.Z * b.Y, -a.X * b.Z + a.Z * b.X, a.X * b.Y - a.Y * b.X, a.W⟩

/-- DotProduct of `vector.go`. -/
def Vec.DotProduct (a b : Vec α) : α :=
  a.X * b.X + a.Y * b.Y + a.Z * b.Z

/-- CalculateSurfaceNormal of `vector.go`. -/
def CalculateSurfaceNormal (v1 v2 v3 : Vec α) : Vec α :=
  let u := v2.Subtract v1
  let v := v3.Subtract v1
  let x := (u.Y * v.Z) - (u.Z * v.Y)
  let y := (u.Z * v.X) - (u.X * v.Z)
  let z := (u.X * v.Y) - (u.Y * v.X)
  ⟨x, y, z, 0⟩

/-! ## matrix.go -/

/-- The struct `Mat3` of `matrix.go`: fields in declaration order. -/
@[ext] structure Mat3 (α : Type) where
  X1 : α
  Y1 : α
  Z1 : α
  X2 : α
  Y2 : α
  Z2 : α
  X3 : α
  Y3 : α
  Z3 : α

/-- The struct `Mat` of `matrix.go`: fields in declaration order. -/
@[ext] structure Mat (α : Type) where
  X1 : α
  Y1 : α
  Z1 : α
  T1 : α
  X2 : α
  Y2 : α
  Z2 : α
  T2 : α
  X3 : α
  Y3 : α
  Z3 : α
  T3 : α
  X4 : α
  Y4 : α
  Z4 : α
  T4 : α

/-- Identity of `matrix.go`. -/
def Identity : Mat α :=
  ⟨1, 0, 0, 0,
   0, 1, 0, 0,
   0, 0, 1, 0,
   0, 0, 0, 1⟩

/-- Multiply of `matrix.go` (on `Mat`). -/
def Mat.Multiply (a b : Mat α) : Mat α where
  X1 := a.X1 * b.X1 + a.X2 * b.Y1 + a.X3 * b.Z1 + a.X4 * b.T1
  Y1 := a.Y1 * b.X1 + a.Y2 * b.Y1 + a.Y3 * b.Z1 + a.Y4 * b.T1
  Z1 := a.Z1 * b.X1 + a.Z2 * b.Y1 + a.Z3 * b.Z1 + a.Z4 * b.T1
  T1 := a.T1 * b.X1 + a.T2 * b.Y1 + a.T3 * b.Z1 + a.T4 * b.T1
  X2 := a.X1 * b.X2 + a.X2 * b.Y2 + a.X3 * b.Z2 + a.X4 * b.T2
  Y2 := a.Y1 * b.X2 + a.Y2 * b.Y2 + a.Y3 * b.Z2 + a.Y4 * b.T2
  Z2 := a.Z1 * b.X2 + a.Z2 * b.Y2 + a.Z3 * b.Z2 + a.Z4 * b.T2
  T2 := a.T1 * b.X2 + a.T2 * b.Y2 + a.T3 * b.Z2 + a.T4 * b.T2
  X3 := a.X1 * b.X3 + a.X2 * b.Y3 + a.X3 * b.Z3 + a.X4 * b.T3
  Y3 := a.Y1 * b.X3 + a.Y2 * b.Y3 + a.Y3 * b.Z3 + a.Y4 * b.T3
  Z3 := a.Z1 * b.X3 + a.Z2 * b.Y3 + a.Z3 * b.Z3 + a.Z4 * b.T3
  T3 := a.T1 * b.X3 + a.T2 * b.Y3 + a.T3 * b.Z3 + a.T4 * b.T3
  X4 := a.X1 * b.X4 + a.X2 * b.Y4 + a.X3 * b.Z4 + a.X4 * b.T4
  Y4 := a.Y1 * b.X4 + a.Y2 * b.Y4 + a.Y3 * b.Z4 + a.Y4 * b.T4
  Z4 := a.Z1 * b.X4 + a.Z2 * b.Y4 + a.Z3 * b.Z4 + a.Z4 * b.T4
  T4 := a.T1 * b.X4 + a.T2 * b.Y4 + a.T3 * b.Z4 + a.T4 * b.T4

/-- Translate of `matrix.go`: a copy of `a` with the last column rewritten. -/
def Mat.Translate (a : Mat α) (b : Vec α) : Mat α :=
  { a with
    X4 := a.X1 * b.X + a.X2 * b.Y + a.X3 * b.Z + a.X4 * b.W
    Y4 := a.Y1 * b.X + a.Y2 * b.Y + a.Y3 * b.Z + a.Y4 * b.W
    Z4 := a.Z1 * b.X + a.Z2 * b.Y + a.Z3 * b.Z + a.Z4 * b.W
    T4 := 1 }

/-- Array of `matrix.go`: the value `[4][4]float64`, first index the outer one. -/
def Mat.Array (a : Mat α) : Fin 4 → Fin 4 → α :=
  ![![a.X1, a.Y1, a.Z1, a.T1],
    ![a.X2, a.Y2, a.Z2, a.T2],
    ![a.X3, a.Y3, a.Z3, a.T3],
    ![a.X4, a.Y4, a.Z4, a.T4]]

/-- The method `Mat3()` of `Mat`: the positional literal fills the nine fields
of the result in declaration order. -/
def Mat.Mat3 (a : Mat α) : VizMath.Mat3 α :=
  ⟨a.X1, a.Y1, a.Z1,
   a.X2, a.Y2, a.Z2,
   a.X3, a.Y3, a.Z3⟩

/-- Det of `matrix.go`. -/
def Mat3.Det (a : Mat3 α) : α :=
  a.X1 * a.Y2 * a.Z3 +
    a.X2 * a.Y3 * a.Z1 +
    a.X3 * a.Y1 * a.Z2 -
    a.X3 * a.Y2 * a.Z1 -
    a.X2 * a.Y1 * a.Z3 -
    a.X1 * a.Y3 * a.Z2

/-- Transpose of `matrix.go`: a positional literal again. -/
def Mat3.Transpose (a : Mat3 α) : Mat3 α :=
  ⟨a.X1, a.X2, a.X3,
   a.Y1, a.Y2, a.Y3,
   a.Z1, a.Z2, a.Z3⟩

/-- Adjoint of `matrix.go`: `var b Mat3` is all zero, then nine assignments in
source order.  The third group assigns `X2`, `Y2`, `Z2` a second time and
nothing assigns `X3`, `Y3`, `Z3`. -/
def Mat3.Adjoint (m : Mat3 α) (scale : α) : Mat3 α :=
  let b : Mat3 α := ⟨0, 0, 0, 0, 0, 0, 0, 0, 0⟩
  let b := { b with X1 := scale * (m.Y2 * m.Z2 - m.Y2 * m.Z2) }
  let b := { b with Y1 := scale * (m.Y2 * m.Z1 - m.Y1 * m.Z2) }
  let b := { b with Z1 := scale * (m.Y1 * m.Z2 - m.Y2 * m.Z1) }
  let b := { b with X2 := scale * (m.X2 * m.Z2 - m.X2 * m.Z2) }
  let b := { b with Y2 := scale * (m.X1 * m.Z2 - m.X2 * m.Z1) }
  let b := { b with Z2 := scale * (m.X2 * m.Z1 - m.X1 * m.Z2) }
  let b := { b with X2 := scale * (m.X2 * m.Y2 - m.X2 * m.Y2) }
  let b := { b with Y2 := scale * (m.X2 * m.Y1 - m.X1 * m.Y2) }
  let b := { b with Z2 := scale * (m.X1 * m.Y2 - m.X2 * m.Y1) }
  b

/-- Inverse of `matrix.go`. -/
def Mat3.Inverse (m : Mat3 α) : Mat3 α × Option String :=
  let det := m.Det
  if det = 0 then
    (m, some "Cannot inverse a matrix with a determinant equal to 0.")
  else
    (m.Adjoint (1 / det), none)

/-- CalculateNormalMatrix of `matrix.go`. -/
def Mat.CalculateNormalMatrix (a : Mat α) : VizMath.Mat3 α × Option String :=
  let m := a.Mat3
  match m.Inverse with
  | (m, some err) => (m, some err)
  | (m, none) => (m.Transpose, none)

/-! ## quaternion.go -/

/-- The struct `Quat` of `quaternion.go`: fields in declaration order W, X, Y, Z. -/
@[ext] structure Quat (α : Type) where
  W : α
  X : α
  Y : α
  Z : α

/-- Length of `quaternion.go`: the 4-component norm. -/
def Quat.Length (Sqrt : α → α) (v : Quat α) : α :=
  Sqrt ((v.W * v.W) + (v.X * v.X) + (v.Y * v.Y) + (v.Z * v.Z))

/-- Normalize of `quaternion.go`: divides all four fields by the length when it
is not 0. -/
def Quat.Normalize (Sqrt : α → α) (v : Quat α) : Quat α :=
  let l := v.Length Sqrt
  if l ≠ 0 then ⟨v.W / l, v.X / l, v.Y / l, v.Z / l⟩ else v

/-- NewQuat of `quaternion.go`. -/
def NewQuat (Sqrt Cos Sin : α → α) (radian : α) (xyz : Vec α) : Quat α :=
  let v : Quat α :=
    ⟨Cos (radian / 2), Sin (radian / 2) * xyz.X, Sin (radian / 2) * xyz.Y,
      Sin (radian / 2) * xyz.Z⟩
  v.Normalize Sqrt

/-- The table `nxt = [3]int{1, 2, 0}` of `NewQuatFromMat`. -/
def nxt : Fin 3 → Fin 3 := ![1, 2, 0]

/-- NewQuatFromMat of `quaternion.go`.  The indices `i`, `j`, `k` range over
0, 1, 2; the local array `q` has four cells, all 0 at first. -/
def NewQuatFromMat (Sqrt : α → α) (mat : Mat α) : Quat α :=
  let m := mat.Array
  let tr := m 0 0 + m 1 1 + m 2 2
  if tr > 0 then
    let s := Sqrt (tr + 1)
    let w := s / 2
    let s := (1 / 2) / s
    ⟨w, (m 1 2 - m 2 1) * s, (m 2 0 - m 0 2) * s, (m 0 1 - m 1 0) * s⟩
  else
    let i : Fin 3 := 0
    let i : Fin 3 := if m 1 1 > m 0 0 then 1 else i
    let i : Fin 3 := if m 2 2 > m i.castSucc i.castSucc then 2 else i
    let j := nxt i
    let k := nxt j
    let s := Sqrt ((m i.castSucc i.castSucc
      - (m j.castSucc j.castSucc + m k.castSucc k.castSucc)) + 1)
    let q : Fin 4 → α := fun _ => 0
    let q := Function.update q i.castSucc (s * (1 / 2))
    let s := if s ≠ 0 then (1 / 2) / s else s
    let q := Function.update q 3 ((m j.castSucc k.castSucc - m k.castSucc j.castSucc) * s)
    let q := Function.update q j.castSucc
      ((m i.castSucc j.castSucc + m j.castSucc i.castSucc) * s)
    let q := Function.update q k.castSucc
      ((m i.castSucc k.castSucc + m k.castSucc i.castSucc) * s)
    ⟨q 3, q 0, q 1, q 2⟩

/-- RotMat of `quaternion.go`: `var m Mat` is all zero, then ten assignments to
ten different fields. -/
def Quat.RotMat (v : Quat α) : Mat α :=
  let w := v.W
  let x := v.X
  let y := v.Y
  let z := v.Z
  { X1 := 1 - 2 * y * y - 2 * z * z
    Y1 := 2 * x * y - 2 * w * z
    Z1 := 2 * x * z + 2 * w * y
    T1 := 0
    X2 := 2 * x * y + 2 * w * z
    Y2 := 1 - 2 * x * x - 2 * z * z
    Z2 := 2 * y * z - 2 * w * x
    T2 := 0
    X3 := 2 * x * z - 2 * w * y
    Y3 := 2 * y * z + 2 * w * x
    Z3 := 1 - 2 * x * x - 2 * y * y
    T3 := 0
    X4 := 0
    Y4 := 0
    Z4 := 0
    T4 := 1 }

/-- Multiply of `quaternion.go` (on `Quat`). -/
def Quat.Multiply (q r : Quat α) : Quat α :=
  let w := q.W * r.W - q.X * r.X - q.Y * r.Y - q.Z * r.Z
  let x := q.W * r.X + q.X * r.W - q.Y * r.Z + q.Z * r.Y
  let y := q.W * r.Y + q.X * r.Z + q.Y * r.W - q.Z * r.X
  let z := q.W * r.Z - q.X * r.Y + q.Y * r.X + q.Z * r.W
  ⟨w, x, y, z⟩

/-- Conjugate of `quaternion.go`. -/
def Quat.Conjugate (q : Quat α) : Quat α :=
  ⟨q.W, -q.X, -q.Y, -q.Z⟩

/-- DotProduct of `quaternion.go`. -/
def Quat.DotProduct (q r : Quat α) : α :=
  q.W * r.W + q.X * r.X + q.Y * r.Y + q.Z * r.Z

/-- Add of `quaternion.go`. -/
def Quat.Add (a b : Quat α) : Quat α :=
  ⟨a.W + b.W, a.X + b.X, a.Y + b.Y, a.Z + b.Z⟩

/-- Subtract of `quaternion.go`. -/
def Quat.Subtract (a b : Quat α) : Quat α :=
  ⟨a.W - b.W, a.X - b.X, a.Y - b.Y, a.Z - b.Z⟩

/-- Scale of `quaternion.go`. -/
def Quat.Scale (q : Quat α) (scalar : α) : Quat α :=
  ⟨q.W * scalar, q.X * scalar, q.Y * scalar, q.Z * scalar⟩

/-- RotateVector of `quaternion.go`.  The result is the positional literal
`Vec{0, resQuat.X, resQuat.Y, resQuat.Y}`, whose four values fill the fields
X, Y, Z, W of `Vec` in that order. -/
def Quat.RotateVector (Sqrt : α → α) (q : Quat α) (v : Vec α) : Vec α :=
  let v := v.Normalize Sqrt
  let vecQuat : Quat α := ⟨0, v.X, v.Y, v.Z⟩
  let resQuat := vecQuat.Multiply q.Conjugate
  let resQuat := q.Multiply resQuat
  ⟨0, resQuat.X, resQuat.Y, resQuat.Y⟩

/-- Slerp of `quaternion.go`. -/
def Quat.Slerp (Sqrt Cos Sin Acos : α → α) (a b : Quat α) (percent : α) : Quat α :=
  let a := a.Normalize Sqrt
  let b := b.Normalize Sqrt
  let dot := a.DotProduct b
  let dp := Clamp dot (-1) 1
  let theta := Acos dp * percent
  let relq := b.Subtract (a.Scale dp)
  let relq := relq.Normalize Sqrt
  let relq := (a.Scale (Cos theta)).Add (relq.Scale (Sin theta))
  relq.Normalize Sqrt

/-- Nlerp of `quaternion.go`. -/
def Quat.Nlerp (Sqrt : α → α) (a b : Quat α) (percent : α) : Quat α :=
  let a := a.Normalize Sqrt
  let b := b.Normalize Sqrt
  let p := 1 - percent
  let ret := if a.DotProduct b < 0 then (a.Scale p).Add (b.Scale (-percent))
    else (a.Scale p).Add (b.Scale percent)
  ret.Normalize Sqrt

/-! ## Definitions that follow the specification's words -/

/-- The Hamilton product of two quaternions, as the specification writes it
out for `Multiply`: the product with `i * j = k`. -/
def hamiltonProduct (q r : Quat α) : Quat α :=
  ⟨q.W * r.W - q.X * r.X - q.Y * r.Y - q.Z * r.Z,
   q.W * r.X + q.X * r.W + q.Y * r.Z - q.Z * r.Y,
   q.W * r.Y - q.X * r.Z + q.Y * r.W + q.Z * r.X,
   q.W * r.Z + q.X * r.Y - q.Y * r.X + q.Z * r.W⟩

/-- The identity `Mat3` of the specification: X1 = Y2 = Z3 = 1, all else 0. -/
def identityMat3 : Mat3 α :=
  ⟨1, 0, 0,
   0, 1, 0,
   0, 0, 1⟩

/-- The 3x3 matrix whose entries are the nine fields of a `Mat3`, as the
specification reads them: rows X, Y, Z and columns 1, 2, 3. -/
def Mat3.toMatrix (m : Mat3 α) : Matrix (Fin 3) (Fin 3) α :=
  !![m.X1, m.X2, m.X3;
     m.Y1, m.Y2, m.Y3;
     m.Z1, m.Z2, m.Z3]

/-- The translation matrix of the specification: `Identity` with the last
column's X4, Y4, Z4 set to the vector's X, Y, Z. -/
def translationMat (v : Vec α) : Mat α :=
  { (Identity : Mat α) with X4 := v.X, Y4 := v.Y, Z4 := v.Z }

/-! ## Mat3: inversion -/

/-- C1 (the code at the failing input): on the identity `Mat3`, whose
determinant is 1, `Inverse` reports no error and returns the matrix with
`Y2 = -1`, `Z2 = 1` and every other entry 0, which is not the identity. -/
theorem Mat3.Inverse_identity_is_not_identity :
    (identityMat3 : Mat3 ℝ).Det = 1 ∧
    (identityMat3 : Mat3 ℝ).Inverse = (⟨0, 0, 0, 0, -1, 1, 0, 0, 0⟩, none) ∧
    (identityMat3 : Mat3 ℝ).Inverse.1 ≠ identityMat3 := by
  refine ⟨by norm_num [identityMat3, Mat3.Det], ?_, ?_⟩
  · norm_num [identityMat3, Mat3.Inverse, Mat3.Adjoint, Mat3.Det]
  · intro h
    have h1 := congrArg Mat3.X1 h
    norm_num [identityMat3, Mat3.Inverse, Mat3.Adjoint, Mat3.Det] at h1

/-- C5: `Inverse` returns an error exactly when `Det` is 0; with an error the
returned matrix is the receiver itself, and without one it is
`m.Adjoint (1 / m.Det)`. -/
theorem Mat3.Inverse_error_iff_det_zero (m : Mat3 ℝ) :
    (m.Inverse.2.isSome = true ↔ m.Det = 0) ∧
    (m.Inverse.2.isSome = true → m.Inverse.1 = m) ∧
    (m.Inverse.2 = none → m.Inverse.1 = m.Adjoint (1 / m.Det)) := by
  by_cases h : m.Det = 0
  · simp [Mat3.Inverse, h]
  · simp [Mat3.Inverse, h]

/-- C5 at the all-zero `Mat3` (an error, the matrix returned unchanged) and
at the identity (no error). -/
theorem Mat3.Inverse_error_iff_det_zero_witness :
    (((⟨0, 0, 0, 0, 0, 0, 0, 0, 0⟩ : Mat3 ℝ).Inverse.2.isSome = true ↔
        (⟨0, 0, 0, 0, 0, 0, 0, 0, 0⟩ : Mat3 ℝ).Det = 0) ∧
      ((⟨0, 0, 0, 0, 0, 0, 0, 0, 0⟩ : Mat3 ℝ).Inverse.2.isSome = true →
        (⟨0, 0, 0, 0, 0, 0, 0, 0, 0⟩ : Mat3 ℝ).Inverse.1 = ⟨0, 0, 0, 0, 0, 0, 0, 0, 0⟩) ∧
      ((⟨0, 0, 0, 0, 0, 0, 0, 0, 0⟩ : Mat3 ℝ).Inverse.2 = none →
        (⟨0, 0, 0, 0, 0, 0, 0, 0, 0⟩ : Mat3 ℝ).Inverse.1 =
          (⟨0, 0, 0, 0, 0, 0, 0, 0, 0⟩ : Mat3 ℝ).Adjoint
            (1 / (⟨0, 0, 0, 0, 0, 0, 0, 0, 0⟩ : Mat3 ℝ).Det))) ∧
    (⟨0, 0, 0, 0, 0, 0, 0, 0, 0⟩ : Mat3 ℝ).Inverse.2.isSome = true :=
  ⟨Mat3.Inverse_error_iff_det_zero ⟨0, 0, 0, 0, 0, 0, 0, 0, 0⟩,
    by simp [Mat3.Inverse, Mat3.Det]⟩

/-- `CalculateNormalMatrix` returns an error exactly when the determinant of
the upper-left block `a.Mat3` is 0, and otherwise returns, with no error, the
transpose of what `a.Mat3.Inverse` returns. -/
theorem Mat.CalculateNormalMatrix_error_iff (a : Mat ℝ) :
    (a.CalculateNormalMatrix.2.isSome = true ↔ a.Mat3.Det = 0) ∧
    (a.Mat3.Det ≠ 0 →
      a.CalculateNormalMatrix = (a.Mat3.Inverse.1.Transpose, none)) := by
  by_cases h : a.Mat3.Det = 0
  · simp [Mat.CalculateNormalMatrix, Mat3.Inverse, h]
  · simp [Mat.CalculateNormalMatrix, Mat3.Inverse, h]

/-- The matrix `CalculateNormalMatrix` returns always has determinant 0: with
an error it is the singular block itself, and without one it is the transpose
of an `Adjoint` whose X1, X2, X3, Y3, Z3 are all 0. -/
theorem Mat.CalculateNormalMatrix_Det_eq_zero (a : Mat ℝ) :
    a.CalculateNormalMatrix.1.Det = 0 := by
  by_cases h : a.Mat3.Det = 0
  · have hm : a.CalculateNormalMatrix.1 = a.Mat3 := by
      simp [Mat.CalculateNormalMatrix, Mat3.Inverse, h]
    rw [hm]
    exact h
  · rw [(Mat.CalculateNormalMatrix_error_iff a).2 h]
    simp only [Mat3.Inverse, if_neg h]
    simp [Mat3.Adjoint, Mat3.Transpose, Mat3.Det]

/-- C6 (the code at the failing input): the scaling matrix diag(2, 2, 2, 1) has
a 3x3 block of determinant 8, whose inverse-transpose is diag(1/2, 1/2, 1/2)
(its transpose times the block is the unit matrix); `CalculateNormalMatrix`
reports no error and returns the matrix with `Y2 = -1/2`, `Y3 = 1/2` and every
other entry 0, of determinant 0. -/
theorem Mat.CalculateNormalMatrix_scale_two :
    (⟨2, 0, 0, 0, 0, 2, 0, 0, 0, 0, 2, 0, 0, 0, 0, 1⟩ : Mat ℝ).Mat3.Det = 8 ∧
    (⟨1 / 2, 0, 0, 0, 1 / 2, 0, 0, 0, 1 / 2⟩ : VizMath.Mat3 ℝ).Transpose.toMatrix *
        (⟨2, 0, 0, 0, 0, 2, 0, 0, 0, 0, 2, 0, 0, 0, 0, 1⟩ : Mat ℝ).Mat3.toMatrix = 1 ∧
    (⟨2, 0, 0, 0, 0, 2, 0, 0, 0, 0, 2, 0, 0, 0, 0, 1⟩ : Mat ℝ).CalculateNormalMatrix =
      (⟨0, 0, 0, 0, -(1 / 2), 0, 0, 1 / 2, 0⟩, none) ∧
    (⟨2, 0, 0, 0, 0, 2, 0, 0, 0, 0, 2, 0, 0, 0, 0, 1⟩ : Mat ℝ).CalculateNormalMatrix.1 ≠
      ⟨1 / 2, 0, 0, 0, 1 / 2, 0, 0, 0, 1 / 2⟩ ∧
    (⟨2, 0, 0, 0, 0, 2, 0, 0, 0, 0, 2, 0, 0, 0, 0, 1⟩ : Mat ℝ).CalculateNormalMatrix.1.Det
      = 0 := by
  have hd : (⟨2, 0, 0, 0, 0, 2, 0, 0, 0, 0, 2, 0, 0, 0, 0, 1⟩ : Mat ℝ).Mat3.Det = 8 := by
    norm_num [Mat.Mat3, Mat3.Det]
  have hr : (⟨2, 0, 0, 0, 0, 2, 0, 0, 0, 0, 2, 0, 0, 0, 0, 1⟩ : Mat ℝ).CalculateNormalMatrix =
      (⟨0, 0, 0, 0, -(1 / 2), 0, 0, 1 / 2, 0⟩, none) := by
    have hne : (⟨2, 0, 0, 0, 0, 2, 0, 0, 0, 0, 2, 0, 0, 0, 0, 1⟩ : Mat ℝ).Mat3.Det ≠ 0 := by
      rw [hd]
      norm_num
    rw [((Mat.CalculateNormalMatrix_error_iff _).2 hne)]
    simp only [Mat3.Inverse, if_neg hne, hd]
    refine Prod.ext ?_ rfl
    ext <;> norm_num [Mat.Mat3, Mat3.Adjoint, Mat3.Transpose]
  refine ⟨hd, ?_, hr, ?_, ?_⟩
  · ext i j
    fin_cases i <;> fin_cases j <;>
      simp [Mat.Mat3, Mat3.Transpose, Mat3.toMatrix, Matrix.mul_apply, Fin.sum_univ_three,
        Matrix.vecHead, Matrix.vecTail]
  · rw [hr]
    intro h
    have h1 := congrArg Mat3.X1 h
    norm_num at h1
  · rw [hr]
    norm_num [Mat3.Det]

/-! ## Mat: multiplication -/

/-- C7: `Mat.Multiply` is associative in all 16 entries. -/
theorem Mat.Multiply_assoc (a b c : Mat ℝ) :
    (a.Multiply b).Multiply c = a.Multiply (b.Multiply c) := by
  ext <;> simp only [Mat.Multiply] <;> ring

/-- C8: `Identity` is a two-sided identity of `Mat.Multiply`, and in particular
`Identity` times `Identity` is `Identity`. -/
theorem Mat.Multiply_Identity (a : Mat ℝ) :
    (Identity : Mat ℝ).Multiply a = a ∧ a.Multiply Identity = a ∧
    (Identity : Mat ℝ).Multiply Identity = Identity := by
  refine ⟨?_, ?_, ?_⟩ <;> ext <;> simp [Mat.Multiply, Identity]

/-! ## Quat: products and rotation -/

/-- C3 (counterexample): with `i = (0,1,0,0)` and `j = (0,0,1,0)` written as
(W, X, Y, Z), `i.Multiply j` is not `k = (0,0,0,1)`, and so `Multiply` is not
the Hamilton product there. -/
theorem Quat.Multiply_i_j_ne_k :
    (⟨0, 1, 0, 0⟩ : Quat ℝ).Multiply ⟨0, 0, 1, 0⟩ ≠ ⟨0, 0, 0, 1⟩ ∧
    (⟨0, 1, 0, 0⟩ : Quat ℝ).Multiply ⟨0, 0, 1, 0⟩ ≠
      hamiltonProduct ⟨0, 1, 0, 0⟩ ⟨0, 0, 1, 0⟩ := by
  constructor <;> intro h <;> have h1 := congrArg Quat.Z h <;>
    norm_num [Quat.Multiply, hamiltonProduct] at h1

/-- C3 (amended): `q.Multiply r` is the Hamilton product of `r` and `q`, the
operands taken in the opposite order: W = qW*rW - qX*rX - qY*rY - qZ*rZ,
X = qW*rX + qX*rW - qY*rZ + qZ*rY, Y = qW*rY + qX*rZ + qY*rW - qZ*rX,
Z = qW*rZ - qX*rY + qY*rX + qZ*rW; in particular `i.Multiply j = -k` and
`j.Multiply i = k`. -/
theorem Quat.Multiply_eq_hamiltonProduct_swap (q r : Quat ℝ) :
    q.Multiply r = hamiltonProduct r q ∧
    q.Multiply r =
      ⟨q.W * r.W - q.X * r.X - q.Y * r.Y - q.Z * r.Z,
       q.W * r.X + q.X * r.W - q.Y * r.Z + q.Z * r.Y,
       q.W * r.Y + q.X * r.Z + q.Y * r.W - q.Z * r.X,
       q.W * r.Z - q.X * r.Y + q.Y * r.X + q.Z * r.W⟩ ∧
    (⟨0, 1, 0, 0⟩ : Quat ℝ).Multiply ⟨0, 0, 1, 0⟩ = ⟨0, 0, 0, -1⟩ ∧
    (⟨0, 0, 1, 0⟩ : Quat ℝ).Multiply ⟨0, 1, 0, 0⟩ = ⟨0, 0, 0, 1⟩ := by
  refine ⟨?_, rfl, ?_, ?_⟩
  · ext <;> simp only [Quat.Multiply, hamiltonProduct] <;> ring
  · ext <;> norm_num [Quat.Multiply]
  · ext <;> norm_num [Quat.Multiply]

/-- C4 (the code at the failing input): for `q = (W=1, X=0, Y=0, Z=0)` and
`v = (1, 0, 0, 0)` the sandwich product has vector part (1, 0, 0), but
`RotateVector` returns the `Vec` (X=0, Y=1, Z=0, W=0), not (1, 0, 0, 0). -/
theorem Quat.RotateVector_unit_x :
    (⟨1, 0, 0, 0⟩ : Quat ℝ).Multiply
        ((⟨0, 1, 0, 0⟩ : Quat ℝ).Multiply (⟨1, 0, 0, 0⟩ : Quat ℝ).Conjugate) =
      ⟨0, 1, 0, 0⟩ ∧
    (⟨1, 0, 0, 0⟩ : Vec ℝ).Normalize Real.sqrt = ⟨1, 0, 0, 0⟩ ∧
    (⟨1, 0, 0, 0⟩ : Quat ℝ).RotateVector Real.sqrt ⟨1, 0, 0, 0⟩ = ⟨0, 1, 0, 0⟩ ∧
    (⟨1, 0, 0, 0⟩ : Quat ℝ).RotateVector Real.sqrt ⟨1, 0, 0, 0⟩ ≠ ⟨1, 0, 0, 0⟩ := by
  have hn : (⟨1, 0, 0, 0⟩ : Vec ℝ).Normalize Real.sqrt = ⟨1, 0, 0, 0⟩ := by
    simp [Vec.Normalize, Vec.Length]
  have hr : (⟨1, 0, 0, 0⟩ : Quat ℝ).RotateVector Real.sqrt ⟨1, 0, 0, 0⟩ = ⟨0, 1, 0, 0⟩ := by
    simp only [Quat.RotateVector, hn]
    ext <;> norm_num [Quat.Multiply, Quat.Conjugate]
  refine ⟨?_, hn, hr, ?_⟩
  · ext <;> norm_num [Quat.Multiply, Quat.Conjugate]
  · rw [hr]
    intro h
    have h1 := congrArg Vec.X h
    norm_num at h1

/-! ## Quat: conversion to and from a rotation matrix -/

/-- C2 (the code at the failing input): the axis (0, 0, 1) and the angle
`2 * arccos (4/5)` give the unit quaternion `q = (W=4/5, X=0, Y=0, Z=3/5)`;
`NewQuatFromMat q.RotMat` is its conjugate `(4/5, 0, 0, -3/5)`, which is
neither `q` nor `-q`. -/
theorem NewQuatFromMat_RotMat_is_conjugate :
    NewQuat Real.sqrt Real.cos Real.sin (2 * Real.arccos (4 / 5)) ⟨0, 0, 1, 0⟩ =
      ⟨4 / 5, 0, 0, 3 / 5⟩ ∧
    NewQuatFromMat Real.sqrt (⟨4 / 5, 0, 0, 3 / 5⟩ : Quat ℝ).RotMat =
      ⟨4 / 5, 0, 0, -(3 / 5)⟩ ∧
    NewQuatFromMat Real.sqrt (⟨4 / 5, 0, 0, 3 / 5⟩ : Quat ℝ).RotMat ≠
      ⟨4 / 5, 0, 0, 3 / 5⟩ ∧
    NewQuatFromMat Real.sqrt (⟨4 / 5, 0, 0, 3 / 5⟩ : Quat ℝ).RotMat ≠
      ⟨-(4 / 5), -0, -0, -(3 / 5)⟩ := by
  have hs : Real.sqrt (64 / 25) = 8 / 5 := by
    rw [show (64 / 25 : ℝ) = (8 / 5) ^ 2 by norm_num, Real.sqrt_sq (by norm_num)]
  have hs2 : Real.sqrt (1 - (4 / 5) ^ 2) = 3 / 5 := by
    rw [show (1 - (4 / 5) ^ 2 : ℝ) = (3 / 5) ^ 2 by norm_num, Real.sqrt_sq (by norm_num)]
  have hc : Real.cos (2 * Real.arccos (4 / 5) / 2) = 4 / 5 := by
    rw [mul_div_cancel_left₀ _ (two_ne_zero), Real.cos_arccos (by norm_num) (by norm_num)]
  have hsn : Real.sin (2 * Real.arccos (4 / 5) / 2) = 3 / 5 := by
    rw [mul_div_cancel_left₀ _ (two_ne_zero), Real.sin_arccos, hs2]
  have hr : NewQuatFromMat Real.sqrt (⟨4 / 5, 0, 0, 3 / 5⟩ : Quat ℝ).RotMat =
      ⟨4 / 5, 0, 0, -(3 / 5)⟩ := by
    have htr : (1 - 2 * 0 * 0 - 2 * (3 / 5) * (3 / 5) + (1 - 2 * 0 * 0 - 2 * (3 / 5) * (3 / 5))
        + (1 - 2 * 0 * 0 - 2 * 0 * 0) : ℝ) = 39 / 25 := by norm_num
    simp only [NewQuatFromMat, Quat.RotMat, Mat.Array, Matrix.cons_val_zero,
      Matrix.cons_val_one, Matrix.head_cons, Matrix.cons_val_two, Matrix.tail_cons, htr]
    rw [if_pos (by norm_num), show (39 / 25 + 1 : ℝ) = 64 / 25 by norm_num, hs]
    ext <;> norm_num
  refine ⟨?_, hr, ?_, ?_⟩
  · simp only [NewQuat, hc, hsn, Quat.Normalize, Quat.Length]
    rw [show ((4 / 5 : ℝ) * (4 / 5) + 3 / 5 * 0 * (3 / 5 * 0) + 3 / 5 * 0 * (3 / 5 * 0)
      + 3 / 5 * 1 * (3 / 5 * 1)) = 1 by norm_num, Real.sqrt_one]
    norm_num
  · rw [hr]
    intro h
    have h1 := congrArg Quat.Z h
    norm_num at h1
  · rw [hr]
    intro h
    have h1 := congrArg Quat.W h
    norm_num at h1

/-! ## Quat: unit length and Slerp -/

/-- A quaternion of `Length` 1 has squares summing to 1. -/
theorem Quat.sum_sq_of_Length_eq_one (a : Quat ℝ) (h : a.Length Real.sqrt = 1) :
    a.W * a.W + a.X * a.X + a.Y * a.Y + a.Z * a.Z = 1 := by
  unfold Quat.Length at h
  exact Real.sqrt_eq_one.1 h

/-- `Normalize` returns a quaternion of `Length` 1 unchanged. -/
theorem Quat.Normalize_of_Length_eq_one (a : Quat ℝ) (h : a.Length Real.sqrt = 1) :
    a.Normalize Real.sqrt = a := by
  simp [Quat.Normalize, h]

/-- The dot product of two unit quaternions lies in [-1, 1]. -/
theorem Quat.DotProduct_mem_Icc (a b : Quat ℝ) (ha : a.Length Real.sqrt = 1)
    (hb : b.Length Real.sqrt = 1) : -1 ≤ a.DotProduct b ∧ a.DotProduct b ≤ 1 := by
  have h1 := a.sum_sq_of_Length_eq_one ha
  have h2 := b.sum_sq_of_Length_eq_one hb
  unfold Quat.DotProduct
  constructor
  · nlinarith [sq_nonneg (a.W + b.W), sq_nonneg (a.X + b.X), sq_nonneg (a.Y + b.Y),
      sq_nonneg (a.Z + b.Z)]
  · nlinarith [sq_nonneg (a.W - b.W), sq_nonneg (a.X - b.X), sq_nonneg (a.Y - b.Y),
      sq_nonneg (a.Z - b.Z)]

/-- `Clamp` leaves a value of the interval alone. -/
theorem Clamp_of_mem (x lo hi : ℝ) (h1 : lo ≤ x) (h2 : x ≤ hi) : Clamp x lo hi = x := by
  unfold Clamp
  rw [if_neg (not_lt.2 h2), if_neg (not_lt.2 h1)]

/-- At `percent = 0` the last two steps of `Slerp` give back `a`, whatever the
normalized relative part is. -/
theorem Quat.Slerp_zero (a b : Quat ℝ) (ha : a.Length Real.sqrt = 1)
    (hb : b.Length Real.sqrt = 1) :
    a.Slerp Real.sqrt Real.cos Real.sin Real.arccos b 0 = a := by
  simp only [Quat.Slerp, a.Normalize_of_Length_eq_one ha, b.Normalize_of_Length_eq_one hb,
    mul_zero, Real.cos_zero, Real.sin_zero]
  have : (a.Scale 1).Add
      (((b.Subtract (a.Scale (Clamp (a.DotProduct b) (-1) 1))).Normalize Real.sqrt).Scale 0)
      = a := by
    ext <;> simp [Quat.Scale, Quat.Add]
  rw [this, a.Normalize_of_Length_eq_one ha]

/-- The part of `b` orthogonal to `a`, namely `b - a * d` with `d` the dot
product, has squared length `1 - d ^ 2` when both are unit quaternions. -/
theorem Quat.sum_sq_Subtract_Scale (a b : Quat ℝ) (ha : a.Length Real.sqrt = 1)
    (hb : b.Length Real.sqrt = 1) :
    (b.W - a.W * a.DotProduct b) * (b.W - a.W * a.DotProduct b)
      + (b.X - a.X * a.DotProduct b) * (b.X - a.X * a.DotProduct b)
      + (b.Y - a.Y * a.DotProduct b) * (b.Y - a.Y * a.DotProduct b)
      + (b.Z - a.Z * a.DotProduct b) * (b.Z - a.Z * a.DotProduct b)
      = 1 - a.DotProduct b ^ 2 := by
  have h1 := a.sum_sq_of_Length_eq_one ha
  have h2 := b.sum_sq_of_Length_eq_one hb
  have hdd : a.DotProduct b = a.W * b.W + a.X * b.X + a.Y * b.Y + a.Z * b.Z := rfl
  linear_combination h2 + a.DotProduct b ^ 2 * h1 + 2 * a.DotProduct b * hdd

/-- Four reals whose squares sum to 0 are all 0. -/
theorem four_sq_eq_zero (w x y z : ℝ) (h : w * w + x * x + y * y + z * z = 0) :
    w = 0 ∧ x = 0 ∧ y = 0 ∧ z = 0 := by
  have hw := mul_self_nonneg w
  have hx := mul_self_nonneg x
  have hy := mul_self_nonneg y
  have hz := mul_self_nonneg z
  refine ⟨?_, ?_, ?_, ?_⟩ <;> apply mul_self_eq_zero.1 <;> linarith

/-- At `percent = 1` `Slerp` returns `b` itself. -/
theorem Quat.Slerp_one (a b : Quat ℝ) (ha : a.Length Real.sqrt = 1)
    (hb : b.Length Real.sqrt = 1) :
    a.Slerp Real.sqrt Real.cos Real.sin Real.arccos b 1 = b := by
  obtain ⟨hd1, hd2⟩ := a.DotProduct_mem_Icc b ha hb
  have hsum := a.sum_sq_Subtract_Scale b ha hb
  simp only [Quat.Slerp, a.Normalize_of_Length_eq_one ha, b.Normalize_of_Length_eq_one hb,
    mul_one, Clamp_of_mem _ _ _ hd1 hd2, Real.cos_arccos hd1 hd2, Real.sin_arccos]
  generalize a.DotProduct b = d at hd1 hd2 hsum ⊢
  have hlen : (b.Subtract (a.Scale d)).Length Real.sqrt = Real.sqrt (1 - d ^ 2) := by
    simp only [Quat.Length, Quat.Subtract, Quat.Scale, hsum]
  have hnn : 0 ≤ 1 - d ^ 2 := by nlinarith
  have key : (a.Scale d).Add
      (((b.Subtract (a.Scale d)).Normalize Real.sqrt).Scale (Real.sqrt (1 - d ^ 2))) = b := by
    by_cases hz : Real.sqrt (1 - d ^ 2) = 0
    · have hz2 : 1 - d ^ 2 = 0 := (Real.sqrt_eq_zero hnn).1 hz
      rw [hz2] at hsum
      obtain ⟨e1, e2, e3, e4⟩ := four_sq_eq_zero _ _ _ _ hsum
      rw [hz]
      ext <;> simp only [Quat.Scale, Quat.Add, mul_zero, add_zero] <;> linarith
    · simp only [Quat.Normalize, hlen]
      rw [if_pos hz]
      ext <;> simp only [Quat.Scale, Quat.Add, Quat.Subtract] <;> field_simp
  rw [key, b.Normalize_of_Length_eq_one hb]

/-- C9: for unit quaternions `a` and `b`, `a.Slerp b 0` is `a`, and
`a.Slerp b 1` is `b` or `-b` (it is `b`). -/
theorem Quat.Slerp_endpoints (a b : Quat ℝ) (ha : a.Length Real.sqrt = 1)
    (hb : b.Length Real.sqrt = 1) :
    a.Slerp Real.sqrt Real.cos Real.sin Real.arccos b 0 = a ∧
    (a.Slerp Real.sqrt Real.cos Real.sin Real.arccos b 1 = b ∨
      a.Slerp Real.sqrt Real.cos Real.sin Real.arccos b 1 = ⟨-b.W, -b.X, -b.Y, -b.Z⟩) :=
  ⟨a.Slerp_zero b ha hb, Or.inl (a.Slerp_one b ha hb)⟩

/-- C9 at `a = (1, 0, 0, 0)` and `b = (0, 1, 0, 0)`. -/
theorem Quat.Slerp_endpoints_witness :
    (⟨1, 0, 0, 0⟩ : Quat ℝ).Length Real.sqrt = 1 ∧
    (⟨0, 1, 0, 0⟩ : Quat ℝ).Length Real.sqrt = 1 ∧
    (⟨1, 0, 0, 0⟩ : Quat ℝ).Slerp Real.sqrt Real.cos Real.sin Real.arccos ⟨0, 1, 0, 0⟩ 0
      = ⟨1, 0, 0, 0⟩ ∧
    ((⟨1, 0, 0, 0⟩ : Quat ℝ).Slerp Real.sqrt Real.cos Real.sin Real.arccos ⟨0, 1, 0, 0⟩ 1
        = ⟨0, 1, 0, 0⟩ ∨
      (⟨1, 0, 0, 0⟩ : Quat ℝ).Slerp Real.sqrt Real.cos Real.sin Real.arccos ⟨0, 1, 0, 0⟩ 1
        = ⟨-0, -1, -0, -0⟩) :=
  have ha : (⟨1, 0, 0, 0⟩ : Quat ℝ).Length Real.sqrt = 1 := by simp [Quat.Length]
  have hb : (⟨0, 1, 0, 0⟩ : Quat ℝ).Length Real.sqrt = 1 := by simp [Quat.Length]
  ⟨ha, hb, Quat.Slerp_endpoints ⟨1, 0, 0, 0⟩ ⟨0, 1, 0, 0⟩ ha hb⟩

/-- Between equal unit inputs the relative part is the zero quaternion, which
`Normalize` leaves alone, and `Slerp` returns `a` at every `t`. -/
theorem Quat.Slerp_self_all (a : Quat ℝ) (t : ℝ) (ha : a.Length Real.sqrt = 1) :
    a.Slerp Real.sqrt Real.cos Real.sin Real.arccos a t = a := by
  have h1 := a.sum_sq_of_Length_eq_one ha
  have hdot : a.DotProduct a = 1 := h1
  have hrel : (a.Subtract (a.Scale 1)).Normalize Real.sqrt = ⟨0, 0, 0, 0⟩ := by
    have : a.Subtract (a.Scale 1) = ⟨0, 0, 0, 0⟩ := by
      ext <;> simp [Quat.Subtract, Quat.Scale]
    rw [this]
    simp [Quat.Normalize, Quat.Length]
  simp only [Quat.Slerp, a.Normalize_of_Length_eq_one ha, hdot,
    Clamp_of_mem (1 : ℝ) (-1) 1 (by norm_num) le_rfl, Real.arccos_one, zero_mul,
    Real.cos_zero, Real.sin_zero, hrel]
  have : (a.Scale 1).Add ((⟨0, 0, 0, 0⟩ : Quat ℝ).Scale 0) = a := by
    ext <;> simp [Quat.Scale, Quat.Add]
  rw [this, a.Normalize_of_Length_eq_one ha]

/-- C10: for a unit quaternion `a` and every `t` in [0, 1], `a.Slerp a t = a`;
the relative part `a - a * dot` is the zero quaternion and its `Normalize` is
the zero quaternion again. -/
theorem Quat.Slerp_self (a : Quat ℝ) (ha : a.Length Real.sqrt = 1) :
    (∀ t : ℝ, 0 ≤ t → t ≤ 1 →
      a.Slerp Real.sqrt Real.cos Real.sin Real.arccos a t = a) ∧
    (a.Subtract (a.Scale (a.DotProduct a))).Normalize Real.sqrt = ⟨0, 0, 0, 0⟩ := by
  refine ⟨fun t _ _ => a.Slerp_self_all t ha, ?_⟩
  have hdot : a.DotProduct a = 1 := a.sum_sq_of_Length_eq_one ha
  have : a.Subtract (a.Scale 1) = ⟨0, 0, 0, 0⟩ := by
    ext <;> simp [Quat.Subtract, Quat.Scale]
  rw [hdot, this]
  simp [Quat.Normalize, Quat.Length]

/-- C10 at `a = (0, 0, 1, 0)` and `t = 1/2`. -/
theorem Quat.Slerp_self_witness :
    (⟨0, 0, 1, 0⟩ : Quat ℝ).Length Real.sqrt = 1 ∧ (0 : ℝ) ≤ 1 / 2 ∧ (1 / 2 : ℝ) ≤ 1 ∧
    (⟨0, 0, 1, 0⟩ : Quat ℝ).Slerp Real.sqrt Real.cos Real.sin Real.arccos ⟨0, 0, 1, 0⟩ (1 / 2)
      = ⟨0, 0, 1, 0⟩ :=
  have ha : (⟨0, 0, 1, 0⟩ : Quat ℝ).Length Real.sqrt = 1 := by simp [Quat.Length]
  ⟨ha, by norm_num, by norm_num,
    (Quat.Slerp_self ⟨0, 0, 1, 0⟩ ha).1 (1 / 2) (by norm_num) (by norm_num)⟩

/-! ## Normalize: unit length or fallback -/

/-- A quaternion of nonzero `Length` is normalized to `Length` 1. -/
theorem Quat.Length_Normalize_of_ne_zero (q : Quat ℝ) (h : q.Length Real.sqrt ≠ 0) :
    (q.Normalize Real.sqrt).Length Real.sqrt = 1 := by
  have hS : 0 < q.W * q.W + q.X * q.X + q.Y * q.Y + q.Z * q.Z := Real.sqrt_ne_zero'.1 h
  have hl := Real.mul_self_sqrt hS.le
  simp only [Quat.Normalize]
  rw [if_pos h]
  unfold Quat.Length at h ⊢
  simp only []
  generalize Real.sqrt (q.W * q.W + q.X * q.X + q.Y * q.Y + q.Z * q.Z) = l at h hl ⊢
  have : q.W / l * (q.W / l) + q.X / l * (q.X / l) + q.Y / l * (q.Y / l)
      + q.Z / l * (q.Z / l) = 1 := by
    field_simp
    linarith
  rw [this, Real.sqrt_one]

/-- C12: a quaternion of nonzero `Length` is normalized to `Length` 1, a unit
quaternion is returned unchanged, and so is the zero quaternion. -/
theorem Quat.Normalize_unit_or_fallback (q : Quat ℝ) :
    (q.Length Real.sqrt ≠ 0 → (q.Normalize Real.sqrt).Length Real.sqrt = 1) ∧
    (q.Length Real.sqrt = 1 → q.Normalize Real.sqrt = q) ∧
    (⟨0, 0, 0, 0⟩ : Quat ℝ).Normalize Real.sqrt = ⟨0, 0, 0, 0⟩ := by
  refine ⟨q.Length_Normalize_of_ne_zero, q.Normalize_of_Length_eq_one, ?_⟩
  simp [Quat.Normalize, Quat.Length]

/-- C12 at `q = (0, 3, 0, 4)`, of `Length` 5, normalized to `Length` 1. -/
theorem Quat.Normalize_unit_or_fallback_witness :
    (⟨0, 3, 0, 4⟩ : Quat ℝ).Length Real.sqrt ≠ 0 ∧
    ((⟨0, 3, 0, 4⟩ : Quat ℝ).Normalize Real.sqrt).Length Real.sqrt = 1 :=
  have h : (⟨0, 3, 0, 4⟩ : Quat ℝ).Length Real.sqrt ≠ 0 := by
    have h5 : Real.sqrt (0 * 0 + 3 * 3 + 0 * 0 + 4 * 4) = 5 := by
      rw [show (0 * 0 + 3 * 3 + 0 * 0 + 4 * 4 : ℝ) = 5 ^ 2 by norm_num,
        Real.sqrt_sq (by norm_num)]
    simp only [Quat.Length, h5]
    norm_num
  ⟨h, (Quat.Normalize_unit_or_fallback ⟨0, 3, 0, 4⟩).1 h⟩

/-- C13: a `Vec` of `Length` 0 is returned unchanged in all four fields;
otherwise X, Y, Z are divided by the `Length`, W is kept, and the result has
`Length` 1. -/
theorem Vec.Normalize_spec (v : Vec ℝ) :
    (v.Length Real.sqrt = 0 → v.Normalize Real.sqrt = v) ∧
    (v.Length Real.sqrt ≠ 0 →
      v.Normalize Real.sqrt =
        ⟨v.X / v.Length Real.sqrt, v.Y / v.Length Real.sqrt, v.Z / v.Length Real.sqrt, v.W⟩ ∧
      (v.Normalize Real.sqrt).Length Real.sqrt = 1) := by
  refine ⟨fun h => by simp [Vec.Normalize, h], fun h => ?_⟩
  have hS : 0 < v.X * v.X + v.Y * v.Y + v.Z * v.Z := Real.sqrt_ne_zero'.1 h
  have hl := Real.mul_self_sqrt hS.le
  have hN : v.Normalize Real.sqrt =
      ⟨v.X / v.Length Real.sqrt, v.Y / v.Length Real.sqrt, v.Z / v.Length Real.sqrt, v.W⟩ := by
    simp only [Vec.Normalize]
    rw [if_pos h]
  refine ⟨hN, ?_⟩
  rw [hN]
  unfold Vec.Length at h ⊢
  simp only []
  generalize Real.sqrt (v.X * v.X + v.Y * v.Y + v.Z * v.Z) = l at h hl ⊢
  have : v.X / l * (v.X / l) + v.Y / l * (v.Y / l) + v.Z / l * (v.Z / l) = 1 := by
    field_simp
    linarith
  rw [this, Real.sqrt_one]

/-- C13 at the zero vector (returned unchanged) and at `(3, 0, 4, 1)`, of
`Length` 5. -/
theorem Vec.Normalize_spec_witness :
    ((⟨0, 0, 0, 0⟩ : Vec ℝ).Length Real.sqrt = 0 ∧
      (⟨0, 0, 0, 0⟩ : Vec ℝ).Normalize Real.sqrt = ⟨0, 0, 0, 0⟩) ∧
    ((⟨3, 0, 4, 1⟩ : Vec ℝ).Length Real.sqrt ≠ 0 ∧
      ((⟨3, 0, 4, 1⟩ : Vec ℝ).Normalize Real.sqrt).Length Real.sqrt = 1) :=
  have h0 : (⟨0, 0, 0, 0⟩ : Vec ℝ).Length Real.sqrt = 0 := by simp [Vec.Length]
  have h : (⟨3, 0, 4, 1⟩ : Vec ℝ).Length Real.sqrt ≠ 0 := by
    have h5 : Real.sqrt (3 * 3 + 0 * 0 + 4 * 4) = 5 := by
      rw [show (3 * 3 + 0 * 0 + 4 * 4 : ℝ) = 5 ^ 2 by norm_num, Real.sqrt_sq (by norm_num)]
    simp only [Vec.Length, h5]
    norm_num
  ⟨⟨h0, (Vec.Normalize_spec ⟨0, 0, 0, 0⟩).1 h0⟩, h, ((Vec.Normalize_spec ⟨3, 0, 4, 1⟩).2 h).2⟩

/-! ## Vec: surface normal and the homogeneous tag -/

/-- C15: `CalculateSurfaceNormal v1 v2 v3` has the X, Y, Z of the cross
product of the edges `v2 - v1` and `v3 - v1` and W = 0, it is orthogonal to
both edges, and on ((0,0,0), (1,0,0), (0,1,0)) it is (0, 0, 1), whatever the W
of the three points. -/
theorem CalculateSurfaceNormal_eq_CrossProduct (v1 v2 v3 : Vec ℝ) (w1 w2 w3 : ℝ) :
    (CalculateSurfaceNormal v1 v2 v3).X = ((v2.Subtract v1).CrossProduct (v3.Subtract v1)).X ∧
    (CalculateSurfaceNormal v1 v2 v3).Y = ((v2.Subtract v1).CrossProduct (v3.Subtract v1)).Y ∧
    (CalculateSurfaceNormal v1 v2 v3).Z = ((v2.Subtract v1).CrossProduct (v3.Subtract v1)).Z ∧
    (CalculateSurfaceNormal v1 v2 v3).W = 0 ∧
    (CalculateSurfaceNormal v1 v2 v3).DotProduct (v2.Subtract v1) = 0 ∧
    (CalculateSurfaceNormal v1 v2 v3).DotProduct (v3.Subtract v1) = 0 ∧
    CalculateSurfaceNormal (⟨0, 0, 0, w1⟩ : Vec ℝ) ⟨1, 0, 0, w2⟩ ⟨0, 1, 0, w3⟩ = ⟨0, 0, 1, 0⟩ := by
  refine ⟨?_, ?_, ?_, rfl, ?_, ?_, ?_⟩
  · simp only [CalculateSurfaceNormal, Vec.CrossProduct, Vec.Subtract]
  · simp only [CalculateSurfaceNormal, Vec.CrossProduct, Vec.Subtract]
    ring
  · simp only [CalculateSurfaceNormal, Vec.CrossProduct, Vec.Subtract]
  · simp only [CalculateSurfaceNormal, Vec.DotProduct, Vec.Subtract]
    ring
  · simp only [CalculateSurfaceNormal, Vec.DotProduct, Vec.Subtract]
    ring
  · ext <;> norm_num [CalculateSurfaceNormal, Vec.Subtract]

/-- C17: `Scale`, `Translate`, `Add`, `Subtract` and `CrossProduct` all return a
`Vec` whose W is the receiver's W, whatever the other operand's W. -/
theorem Vec.W_carried_through (v b : Vec ℝ) (s dx dy dz : ℝ) :
    (v.Scale s).W = v.W ∧ (v.Translate dx dy dz).W = v.W ∧ (v.Add b).W = v.W ∧
    (v.Subtract b).W = v.W ∧ (v.CrossProduct b).W = v.W ∧
    (∀ w : ℝ, v.Add ⟨b.X, b.Y, b.Z, w⟩ = v.Add b ∧
      v.Subtract ⟨b.X, b.Y, b.Z, w⟩ = v.Subtract b ∧
      v.CrossProduct ⟨b.X, b.Y, b.Z, w⟩ = v.CrossProduct b) :=
  ⟨rfl, rfl, rfl, rfl, rfl, fun _ => ⟨rfl, rfl, rfl⟩⟩

/-! ## Clamp -/

/-- C18: with `lo ≤ hi`, `Clamp value lo hi` lies in [lo, hi], is `value` when
`value` is in the interval, `hi` when `value > hi` and `lo` when `value < lo`. -/
theorem Clamp_spec (value lo hi : ℝ) (h : lo ≤ hi) :
    (lo ≤ Clamp value lo hi ∧ Clamp value lo hi ≤ hi) ∧
    (lo ≤ value → value ≤ hi → Clamp value lo hi = value) ∧
    (value > hi → Clamp value lo hi = hi) ∧
    (value < lo → Clamp value lo hi = lo) := by
  unfold Clamp
  refine ⟨?_, ?_, ?_, ?_⟩
  · split_ifs with h1 h2
    · exact ⟨h, le_rfl⟩
    · exact ⟨le_rfl, h⟩
    · exact ⟨not_lt.1 h2, not_lt.1 h1⟩
  · intro h1 h2
    rw [if_neg (not_lt.2 h2), if_neg (not_lt.2 h1)]
  · intro h1
    rw [if_pos h1]
  · intro h1
    rw [if_neg (not_lt.2 (le_trans h1.le h)), if_pos h1]

/-- C18 on the interval [-1, 1] at the value 3, which is capped to 1. -/
theorem Clamp_spec_witness :
    (-1 : ℝ) ≤ 1 ∧ (3 : ℝ) > 1 ∧ Clamp (3 : ℝ) (-1) 1 = 1 :=
  ⟨by norm_num, by norm_num, (Clamp_spec 3 (-1) 1 (by norm_num)).2.2.1 (by norm_num)⟩

/-! ## Mat3: determinant -/

/-- C16: `Det` is the determinant of the 3x3 matrix of the nine fields, equal
to the cofactor expansion along the first row, and `Transpose` (which
transposes that matrix) keeps it. -/
theorem Mat3.Det_eq_det (m : Mat3 ℝ) :
    m.Det = m.toMatrix.det ∧
    m.Det = m.X1 * (m.Y2 * m.Z3 - m.Y3 * m.Z2) - m.X2 * (m.Y1 * m.Z3 - m.Y3 * m.Z1)
      + m.X3 * (m.Y1 * m.Z2 - m.Y2 * m.Z1) ∧
    m.Transpose.toMatrix = m.toMatrix.transpose ∧
    m.Transpose.Det = m.Det := by
  refine ⟨?_, ?_, ?_, ?_⟩
  · simp only [Mat3.Det, Mat3.toMatrix, Matrix.det_fin_three, Matrix.of_apply,
      Matrix.cons_val_zero, Matrix.cons_val_one, Matrix.head_cons, Matrix.cons_val_two,
      Matrix.tail_cons]
    ring
  · simp only [Mat3.Det]
    ring
  · ext i j
    fin_cases i <;> fin_cases j <;> rfl
  · simp only [Mat3.Det, Mat3.Transpose]
    ring

/-! ## Mat: translation -/

/-- C20: for a `Mat` with bottom row (0, 0, 0, 1) and a `Vec` with W = 1,
`Translate` is `Multiply` by the translation matrix; and for every `Mat` and
`Vec`, `Translate` keeps the twelve entries outside the last column and sets
T4 to 1. -/
theorem Mat.Translate_eq_Multiply (a : Mat ℝ) (v : Vec ℝ) :
    (a.T1 = 0 → a.T2 = 0 → a.T3 = 0 → a.T4 = 1 → v.W = 1 →
      a.Translate v = a.Multiply (translationMat v)) ∧
    ((a.Translate v).X1 = a.X1 ∧ (a.Translate v).Y1 = a.Y1 ∧ (a.Translate v).Z1 = a.Z1 ∧
      (a.Translate v).T1 = a.T1 ∧ (a.Translate v).X2 = a.X2 ∧ (a.Translate v).Y2 = a.Y2 ∧
      (a.Translate v).Z2 = a.Z2 ∧ (a.Translate v).T2 = a.T2 ∧ (a.Translate v).X3 = a.X3 ∧
      (a.Translate v).Y3 = a.Y3 ∧ (a.Translate v).Z3 = a.Z3 ∧ (a.Translate v).T3 = a.T3 ∧
      (a.Translate v).T4 = 1) := by
  refine ⟨fun h1 h2 h3 h4 hw => ?_,
    rfl, rfl, rfl, rfl, rfl, rfl, rfl, rfl, rfl, rfl, rfl, rfl, rfl⟩
  ext <;> simp [Mat.Translate, Mat.Multiply, translationMat, Identity, h1, h2, h3, h4, hw]

/-- C20 at a scaling matrix with translation (5, 6, 7) and the point
(1, 2, 3, 1). -/
theorem Mat.Translate_eq_Multiply_witness :
    (⟨2, 0, 0, 0, 0, 3, 0, 0, 0, 0, 4, 0, 5, 6, 7, 1⟩ : Mat ℝ).Translate ⟨1, 2, 3, 1⟩ =
      (⟨2, 0, 0, 0, 0, 3, 0, 0, 0, 0, 4, 0, 5, 6, 7, 1⟩ : Mat ℝ).Multiply
        (translationMat ⟨1, 2, 3, 1⟩) ∧
    (⟨2, 0, 0, 0, 0, 3, 0, 0, 0, 0, 4, 0, 5, 6, 7, 1⟩ : Mat ℝ).Translate ⟨1, 2, 3, 1⟩ =
      ⟨2, 0, 0, 0, 0, 3, 0, 0, 0, 0, 4, 0, 7, 12, 19, 1⟩ := by
  refine ⟨(Mat.Translate_eq_Multiply _ _).1 rfl rfl rfl rfl rfl, ?_⟩
  ext <;> norm_num [Mat.Translate]

/-! ## Quat: Nlerp -/

/-- For unit inputs with a dot product that is not negative, `Nlerp` is the
normalized blend `(1 - t) * a + t * b`. -/
theorem Quat.Nlerp_of_nonneg (a b : Quat ℝ) (t : ℝ) (ha : a.Length Real.sqrt = 1)
    (hb : b.Length Real.sqrt = 1) (hd : 0 ≤ a.DotProduct b) :
    a.Nlerp Real.sqrt b t = ((a.Scale (1 - t)).Add (b.Scale t)).Normalize Real.sqrt := by
  simp only [Quat.Nlerp, a.Normalize_of_Length_eq_one ha, b.Normalize_of_Length_eq_one hb]
  rw [if_neg (not_lt.2 hd)]

/-- For unit inputs with a negative dot product, `Nlerp` is the normalized
blend `(1 - t) * a - t * b`. -/
theorem Quat.Nlerp_of_neg (a b : Quat ℝ) (t : ℝ) (ha : a.Length Real.sqrt = 1)
    (hb : b.Length Real.sqrt = 1) (hd : a.DotProduct b < 0) :
    a.Nlerp Real.sqrt b t =
      ((a.Scale (1 - t)).Subtract (b.Scale t)).Normalize Real.sqrt := by
  simp only [Quat.Nlerp, a.Normalize_of_Length_eq_one ha, b.Normalize_of_Length_eq_one hb]
  rw [if_pos hd]
  have : (a.Scale (1 - t)).Add (b.Scale (-t)) = (a.Scale (1 - t)).Subtract (b.Scale t) := by
    ext <;> simp only [Quat.Scale, Quat.Add, Quat.Subtract] <;> ring
  rw [this]

/-- The blend `(1 - t) * a + s * b` of two unit quaternions, with `s` either
`t` or `-t` so that `s * dot` is not negative, is not of `Length` 0 for `t` in
[0, 1]. -/
theorem Quat.Length_blend_ne_zero (a b : Quat ℝ) (t s : ℝ)
    (ha : a.Length Real.sqrt = 1) (hb : b.Length Real.sqrt = 1)
    (hs : s * s = t * t) (hsd : 0 ≤ (1 - t) * (s * a.DotProduct b)) :
    ((a.Scale (1 - t)).Add (b.Scale s)).Length Real.sqrt ≠ 0 := by
  have h1 := a.sum_sq_of_Length_eq_one ha
  have h2 := b.sum_sq_of_Length_eq_one hb
  have hdd : a.DotProduct b = a.W * b.W + a.X * b.X + a.Y * b.Y + a.Z * b.Z := rfl
  apply Real.sqrt_ne_zero'.2
  simp only [Quat.Scale, Quat.Add]
  have hS : (a.W * (1 - t) + b.W * s) * (a.W * (1 - t) + b.W * s)
      + (a.X * (1 - t) + b.X * s) * (a.X * (1 - t) + b.X * s)
      + (a.Y * (1 - t) + b.Y * s) * (a.Y * (1 - t) + b.Y * s)
      + (a.Z * (1 - t) + b.Z * s) * (a.Z * (1 - t) + b.Z * s)
      = (1 - t) * (1 - t) + t * t + 2 * ((1 - t) * (s * a.DotProduct b)) := by
    linear_combination (1 - t) * (1 - t) * h1 + s * s * h2 + hs
      - 2 * (1 - t) * s * hdd
  rw [hS]
  nlinarith [mul_self_nonneg (1 - t), mul_self_nonneg t, mul_self_nonneg (1 - 2 * t)]

/-- C11: for unit quaternions `a`, `b`, `Nlerp` is the normalized blend
`(1 - t) * a + t * b` when the dot product is at least 0 and
`(1 - t) * a - t * b` when it is negative; so `a.Nlerp b 0 = a`, `a.Nlerp b 1`
is `b` or `-b` accordingly, and for `t` in [0, 1] the result has `Length` 1. -/
theorem Quat.Nlerp_spec (a b : Quat ℝ) (ha : a.Length Real.sqrt = 1)
    (hb : b.Length Real.sqrt = 1) :
    (∀ t : ℝ, 0 ≤ a.DotProduct b →
      a.Nlerp Real.sqrt b t = ((a.Scale (1 - t)).Add (b.Scale t)).Normalize Real.sqrt) ∧
    (∀ t : ℝ, a.DotProduct b < 0 →
      a.Nlerp Real.sqrt b t =
        ((a.Scale (1 - t)).Subtract (b.Scale t)).Normalize Real.sqrt) ∧
    a.Nlerp Real.sqrt b 0 = a ∧
    (0 ≤ a.DotProduct b → a.Nlerp Real.sqrt b 1 = b) ∧
    (a.DotProduct b < 0 → a.Nlerp Real.sqrt b 1 = ⟨-b.W, -b.X, -b.Y, -b.Z⟩) ∧
    (∀ t : ℝ, 0 ≤ t → t ≤ 1 → (a.Nlerp Real.sqrt b t).Length Real.sqrt = 1) := by
  have h2 := b.sum_sq_of_Length_eq_one hb
  refine ⟨fun t hd => a.Nlerp_of_nonneg b t ha hb hd,
    fun t hd => a.Nlerp_of_neg b t ha hb hd, ?_, ?_, ?_, ?_⟩
  · rcases lt_or_le (a.DotProduct b) 0 with hd | hd
    · rw [a.Nlerp_of_neg b 0 ha hb hd]
      have : (a.Scale (1 - 0)).Subtract (b.Scale 0) = a := by
        ext <;> simp [Quat.Scale, Quat.Subtract]
      rw [this, a.Normalize_of_Length_eq_one ha]
    · rw [a.Nlerp_of_nonneg b 0 ha hb hd]
      have : (a.Scale (1 - 0)).Add (b.Scale 0) = a := by
        ext <;> simp [Quat.Scale, Quat.Add]
      rw [this, a.Normalize_of_Length_eq_one ha]
  · intro hd
    rw [a.Nlerp_of_nonneg b 1 ha hb hd]
    have : (a.Scale (1 - 1)).Add (b.Scale 1) = b := by
      ext <;> simp [Quat.Scale, Quat.Add]
    rw [this, b.Normalize_of_Length_eq_one hb]
  · intro hd
    rw [a.Nlerp_of_neg b 1 ha hb hd]
    have : (a.Scale (1 - 1)).Subtract (b.Scale 1) = ⟨-b.W, -b.X, -b.Y, -b.Z⟩ := by
      ext <;> simp [Quat.Scale, Quat.Subtract]
    rw [this]
    apply Quat.Normalize_of_Length_eq_one
    unfold Quat.Length
    rw [show -b.W * -b.W + -b.X * -b.X + -b.Y * -b.Y + -b.Z * -b.Z = 1 by linarith,
      Real.sqrt_one]
  · intro t ht0 ht1
    rcases lt_or_le (a.DotProduct b) 0 with hd | hd
    · simp only [Quat.Nlerp, a.Normalize_of_Length_eq_one ha,
        b.Normalize_of_Length_eq_one hb]
      rw [if_pos hd]
      apply Quat.Length_Normalize_of_ne_zero
      apply a.Length_blend_ne_zero b t (-t) ha hb (by ring)
      have : 0 ≤ (1 - t) * (t * -a.DotProduct b) :=
        mul_nonneg (by linarith) (mul_nonneg ht0 (by linarith))
      linarith
    · rw [a.Nlerp_of_nonneg b t ha hb hd]
      apply Quat.Length_Normalize_of_ne_zero
      exact a.Length_blend_ne_zero b t t ha hb rfl
        (mul_nonneg (by linarith) (mul_nonneg ht0 hd))

/-- C11 at `a = (1, 0, 0, 0)` and `b = (0, 1, 0, 0)`, of dot product 0, with
`t = 1/2`. -/
theorem Quat.Nlerp_spec_witness :
    (⟨1, 0, 0, 0⟩ : Quat ℝ).Length Real.sqrt = 1 ∧
    (⟨0, 1, 0, 0⟩ : Quat ℝ).Length Real.sqrt = 1 ∧
    (0 : ℝ) ≤ (⟨1, 0, 0, 0⟩ : Quat ℝ).DotProduct ⟨0, 1, 0, 0⟩ ∧
    (⟨1, 0, 0, 0⟩ : Quat ℝ).Nlerp Real.sqrt ⟨0, 1, 0, 0⟩ 1 = ⟨0, 1, 0, 0⟩ ∧
    ((⟨1, 0, 0, 0⟩ : Quat ℝ).Nlerp Real.sqrt ⟨0, 1, 0, 0⟩ (1 / 2)).Length Real.sqrt = 1 :=
  have ha : (⟨1, 0, 0, 0⟩ : Quat ℝ).Length Real.sqrt = 1 := by simp [Quat.Length]
  have hb : (⟨0, 1, 0, 0⟩ : Quat ℝ).Length Real.sqrt = 1 := by simp [Quat.Length]
  have hd : (0 : ℝ) ≤ (⟨1, 0, 0, 0⟩ : Quat ℝ).DotProduct ⟨0, 1, 0, 0⟩ := by
    simp [Quat.DotProduct]
  ⟨ha, hb, hd, (Quat.Nlerp_spec _ _ ha hb).2.2.2.1 hd,
    (Quat.Nlerp_spec _ _ ha hb).2.2.2.2.2 (1 / 2) (by norm_num) (by norm_num)⟩

/-! ## Quat: construction from an axis and an angle -/

/-- C14: for an axis of nonzero `Length`, `NewQuat` returns a quaternion of
`Length` 1; for an axis of `Length` 1 it returns exactly
`(cos (radian / 2), sin (radian / 2) * xyz)`. -/
theorem NewQuat_unit (radian : ℝ) (xyz : Vec ℝ) :
    (xyz.Length Real.sqrt ≠ 0 →
      (NewQuat Real.sqrt Real.cos Real.sin radian xyz).Length Real.sqrt = 1) ∧
    (xyz.Length Real.sqrt = 1 →
      NewQuat Real.sqrt Real.cos Real.sin radian xyz =
        ⟨Real.cos (radian / 2), Real.sin (radian / 2) * xyz.X,
          Real.sin (radian / 2) * xyz.Y, Real.sin (radian / 2) * xyz.Z⟩) := by
  have hcs := Real.sin_sq_add_cos_sq (radian / 2)
  constructor
  · intro h
    have hA : 0 < xyz.X * xyz.X + xyz.Y * xyz.Y + xyz.Z * xyz.Z := Real.sqrt_ne_zero'.1 h
    simp only [NewQuat]
    apply Quat.Length_Normalize_of_ne_zero
    apply Real.sqrt_ne_zero'.2
    simp only []
    generalize Real.cos (radian / 2) = c at hcs ⊢
    generalize Real.sin (radian / 2) = s at hcs ⊢
    have hsum : c * c + s * xyz.X * (s * xyz.X) + s * xyz.Y * (s * xyz.Y)
        + s * xyz.Z * (s * xyz.Z)
        = c * c + s * s * (xyz.X * xyz.X + xyz.Y * xyz.Y + xyz.Z * xyz.Z) := by ring
    rw [hsum]
    generalize xyz.X * xyz.X + xyz.Y * xyz.Y + xyz.Z * xyz.Z = A at hA ⊢
    rcases eq_or_ne c 0 with hc | hc
    · have hs : s * s = 1 := by
        rw [hc] at hcs
        linear_combination hcs
      rw [hc, hs]
      linarith
    · have h1 : 0 < c * c := mul_self_pos.2 hc
      have h2 : 0 ≤ s * s * A := mul_nonneg (mul_self_nonneg s) hA.le
      linarith
  · intro h
    have hA : xyz.X * xyz.X + xyz.Y * xyz.Y + xyz.Z * xyz.Z = 1 := by
      unfold Vec.Length at h
      exact Real.sqrt_eq_one.1 h
    simp only [NewQuat]
    apply Quat.Normalize_of_Length_eq_one
    unfold Quat.Length
    simp only []
    rw [show Real.cos (radian / 2) * Real.cos (radian / 2)
        + Real.sin (radian / 2) * xyz.X * (Real.sin (radian / 2) * xyz.X)
        + Real.sin (radian / 2) * xyz.Y * (Real.sin (radian / 2) * xyz.Y)
        + Real.sin (radian / 2) * xyz.Z * (Real.sin (radian / 2) * xyz.Z) = 1 by
      linear_combination hcs + Real.sin (radian / 2) ^ 2 * hA, Real.sqrt_one]

/-- C14 at the angle 0 and the axis (0, 0, 1), of `Length` 1: the result is
the identity rotation (1, 0, 0, 0), of `Length` 1. -/
theorem NewQuat_unit_witness :
    (⟨0, 0, 1, 0⟩ : Vec ℝ).Length Real.sqrt ≠ 0 ∧
    (⟨0, 0, 1, 0⟩ : Vec ℝ).Length Real.sqrt = 1 ∧
    (NewQuat Real.sqrt Real.cos Real.sin 0 (⟨0, 0, 1, 0⟩ : Vec ℝ)).Length Real.sqrt = 1 ∧
    NewQuat Real.sqrt Real.cos Real.sin 0 (⟨0, 0, 1, 0⟩ : Vec ℝ) =
      ⟨Real.cos (0 / 2), Real.sin (0 / 2) * 0, Real.sin (0 / 2) * 0, Real.sin (0 / 2) * 1⟩ :=
  have h1 : (⟨0, 0, 1, 0⟩ : Vec ℝ).Length Real.sqrt = 1 := by simp [Vec.Length]
  have h0 : (⟨0, 0, 1, 0⟩ : Vec ℝ).Length Real.sqrt ≠ 0 := by
    rw [h1]
    exact one_ne_zero
  ⟨h0, h1, (NewQuat_unit 0 ⟨0, 0, 1, 0⟩).1 h0, (NewQuat_unit 0 ⟨0, 0, 1, 0⟩).2 h1⟩

/-! ## Quat: RotMat and the two products -/

/-- C19: for unit quaternions `q` and `r`, `(q.Multiply r).RotMat` is
`q.RotMat.Multiply r.RotMat` in all 16 entries. -/
theorem Quat.RotMat_Multiply (q r : Quat ℝ) (hq : q.Length Real.sqrt = 1)
    (hr : r.Length Real.sqrt = 1) :
    (q.Multiply r).RotMat = q.RotMat.Multiply r.RotMat := by
  have h1 := q.sum_sq_of_Length_eq_one hq
  have h2 := r.sum_sq_of_Length_eq_one hr
  ext <;> simp only [Quat.Multiply, Quat.RotMat, Mat.Multiply]
  case X1 =>
    linear_combination
      ((r.W * r.W + r.X * r.X - r.Y * r.Y - r.Z * r.Z)
        - (2 * (r.W * r.W + r.X * r.X + r.Y * r.Y + r.Z * r.Z) - 1)) * h1
      + ((q.W * q.W + q.X * q.X - q.Y * q.Y - q.Z * q.Z) - 1) * h2
  case Y2 =>
    linear_combination
      ((r.W * r.W - r.X * r.X + r.Y * r.Y - r.Z * r.Z)
        - (2 * (r.W * r.W + r.X * r.X + r.Y * r.Y + r.Z * r.Z) - 1)) * h1
      + ((q.W * q.W - q.X * q.X + q.Y * q.Y - q.Z * q.Z) - 1) * h2
  case Z3 =>
    linear_combination
      ((r.W * r.W - r.X * r.X - r.Y * r.Y + r.Z * r.Z)
        - (2 * (r.W * r.W + r.X * r.X + r.Y * r.Y + r.Z * r.Z) - 1)) * h1
      + ((q.W * q.W - q.X * q.X - q.Y * q.Y + q.Z * q.Z) - 1) * h2
  case Y1 =>
    linear_combination (2 * r.X * r.Y - 2 * r.W * r.Z) * h1
      + (2 * q.X * q.Y - 2 * q.W * q.Z) * h2
  case Z1 =>
    linear_combination (2 * r.X * r.Z + 2 * r.W * r.Y) * h1
      + (2 * q.X * q.Z + 2 * q.W * q.Y) * h2
  case X2 =>
    linear_combination (2 * r.X * r.Y + 2 * r.W * r.Z) * h1
      + (2 * q.X * q.Y + 2 * q.W * q.Z) * h2
  case Z2 =>
    linear_combination (2 * r.Y * r.Z - 2 * r.W * r.X) * h1
      + (2 * q.Y * q.Z - 2 * q.W * q.X) * h2
  case X3 =>
    linear_combination (2 * r.X * r.Z - 2 * r.W * r.Y) * h1
      + (2 * q.X * q.Z - 2 * q.W * q.Y) * h2
  case Y3 =>
    linear_combination (2 * r.Y * r.Z + 2 * r.W * r.X) * h1
      + (2 * q.Y * q.Z + 2 * q.W * q.X) * h2
  all_goals ring

/-- C19 at `q = (0, 1, 0, 0)` and `r = (0, 0, 1, 0)`, whose product under
`Multiply` is `(0, 0, 0, -1)`. -/
theorem Quat.RotMat_Multiply_witness :
    (⟨0, 1, 0, 0⟩ : Quat ℝ).Length Real.sqrt = 1 ∧
    (⟨0, 0, 1, 0⟩ : Quat ℝ).Length Real.sqrt = 1 ∧
    ((⟨0, 1, 0, 0⟩ : Quat ℝ).Multiply ⟨0, 0, 1, 0⟩).RotMat =
      (⟨0, 1, 0, 0⟩ : Quat ℝ).RotMat.Multiply (⟨0, 0, 1, 0⟩ : Quat ℝ).RotMat :=
  have hq : (⟨0, 1, 0, 0⟩ : Quat ℝ).Length Real.sqrt = 1 := by simp [Quat.Length]
  have hr : (⟨0, 0, 1, 0⟩ : Quat ℝ).Length Real.sqrt = 1 := by simp [Quat.Length]
  ⟨hq, hr, Quat.RotMat_Multiply _ _ hq hr⟩

end VizMath
